import Mathlib

/-!
Verification development for the agentic-rag-example repository.

The Python source is shallowly embedded: pandas DataFrames become lists of
typed columns over exact rational cells, the JSON result strings of the
agent tools become structured result types, the two singleton stores become
explicit state-passing functions, and the re-entrant locking behaviour of
`threading.Lock` is made explicit (acquiring a held lock never returns,
modelled as a dedicated outcome).  Numbers that the source handles as IEEE
floats are modelled as exact rationals (ℚ) or reals (ℝ); `NaN`/`NaT` cells
are modelled as `Option.none`.
-/

namespace AgenticRag

/-! ## Data model: cells, columns, data frames

A pandas cell is either missing (`NaN`/`NaT`, modelled `none`) or holds a
number, a string, or a timestamp.  A column carries its pandas dtype; a
well-typed column only holds cells of its dtype.  Timestamps are modelled
as rationals so that the numeric-to-datetime coercion of `pd.to_datetime`
is order-preserving. -/

inductive Value where
  | vnum (q : ℚ)
  | vstr (s : String)
  | vdate (t : ℚ)
deriving DecidableEq, Repr

inductive Dtype where
  | numeric
  | text
  | datetime
deriving DecidableEq, Repr

structure Column where
  name : String
  dtype : Dtype
  cells : List (Option Value)
deriving DecidableEq, Repr

def Value.matchesDtype : Value → Dtype → Bool
  | .vnum _, .numeric => true
  | .vstr _, .text => true
  | .vdate _, .datetime => true
  | _, _ => false

def Column.wellTyped (c : Column) : Bool :=
  c.cells.all (fun cell =>
    match cell with
    | none => true
    | some v => v.matchesDtype c.dtype)

structure DataFrame where
  cols : List Column
deriving DecidableEq, Repr

def DataFrame.names (df : DataFrame) : List String :=
  df.cols.map Column.name

def DataFrame.getCol (df : DataFrame) (c : String) : Option Column :=
  df.cols.find? (fun col => col.name = c)

def DataFrame.height (df : DataFrame) : Nat :=
  match df.cols with
  | [] => 0
  | c :: _ => c.cells.length

def DataFrame.wellFormed (df : DataFrame) : Bool :=
  df.cols.all Column.wellTyped
    && df.cols.all (fun c => c.cells.length = df.height)
    && df.names.Nodup

/-- Numeric view of a column: the rational payloads, with non-numeric or
missing cells as `none` (a well-typed numeric column has no non-numeric
cells, so there `none` is exactly `NaN`). -/
def Column.nums (c : Column) : List (Option ℚ) :=
  c.cells.map (fun cell =>
    match cell with
    | some (.vnum q) => some q
    | _ => none)

/-! ## Column-name normalization at ingestion (`src/data/excel_handler.py`)

`ExcelHandler.process_file` cleans the column index with the vectorized
pipeline `.str.strip().str.lower().str.replace(' ', '_')
.str.replace('[^a-z0-9_]', '', regex=True)`.  Each stage is modelled on
the character list of the name; the composition is `normalize_column`. -/

def isPySpace (c : Char) : Bool :=
  c = ' ' || c = '\t' || c = '\n' || c = '\r' || c = '\x0b' || c = '\x0c'

/-- Python `str.strip()` with no argument: drop leading and trailing
whitespace. -/
def pyStrip (l : List Char) : List Char :=
  ((l.dropWhile isPySpace).reverse.dropWhile isPySpace).reverse

def pyLower (l : List Char) : List Char :=
  l.map Char.toLower

def spacesToUnderscores (l : List Char) : List Char :=
  l.map (fun c => if c = ' ' then '_' else c)

/-- The regex replacement `[^a-z0-9_]` → `''`: keep only lowercase ASCII
letters, digits and underscores. -/
def keepAllowed (l : List Char) : List Char :=
  l.filter (fun c => ('a' ≤ c && c ≤ 'z') || ('0' ≤ c && c ≤ '9') || c = '_')

def normalize_column (s : String) : String :=
  (keepAllowed (spacesToUnderscores (pyLower (pyStrip s.toList)))).asString

/-- The column-index cleaning step of `ExcelHandler.process_file`, as the
source writes it: four vectorized passes over the whole name list.  The
codomain has no error case: the source performs no collision check on the
normalized names. -/
def clean_columns (names : List String) : List String :=
  ((((names.map (fun s => pyStrip s.toList)).map pyLower).map
      spacesToUnderscores).map keepAllowed).map List.asString

/-! ## Aggregation (`aggregate_data`, `src/agent/tools.py`)

Pandas reductions skip nulls; `mean`/`median`/`min`/`max` of an empty
selection and `std` (sample standard deviation, `ddof=1`) of fewer than
two observations are `NaN`, which the source converts to JSON `null` via
`float(result) if pd.notna(result) else None`.  The JSON strings returned
by the tool are modelled as a structured outcome type. -/

/-- Kernel-reducible rational arithmetic: the core `Rat.add`, `Rat.sub`,
`Rat.mul`, `Rat.div` do not reduce in the kernel, so the trend path uses
these `mkRat`/`divInt` forms instead; `qadd_eq`, `qsub_eq`, `qmul_eq` and
`qdiv_eq` below prove them equal to the field operations. -/
def qadd (a b : ℚ) : ℚ :=
  mkRat (a.num * (b.den : ℤ) + b.num * (a.den : ℤ)) (a.den * b.den)

def qsub (a b : ℚ) : ℚ :=
  mkRat (a.num * (b.den : ℤ) - b.num * (a.den : ℤ)) (a.den * b.den)

def qmul (a b : ℚ) : ℚ :=
  mkRat (a.num * b.num) (a.den * b.den)

def qdiv (a b : ℚ) : ℚ :=
  Rat.divInt (a.num * (b.den : ℤ)) ((a.den : ℤ) * b.num)

/-- Floor of a rational as `Int.fdiv` (kernel-reducible). -/
def qfloor (q : ℚ) : ℤ :=
  q.num.fdiv q.den

def nonNull (xs : List (Option ℚ)) : List ℚ :=
  xs.filterMap id

def osum (xs : List (Option ℚ)) : ℚ :=
  (nonNull xs).sum

def ocount (xs : List (Option ℚ)) : Nat :=
  (nonNull xs).length

def omean (xs : List (Option ℚ)) : Option ℚ :=
  if ocount xs = 0 then none else some (osum xs / (ocount xs : ℚ))

def omedian (xs : List (Option ℚ)) : Option ℚ :=
  let l := List.insertionSort (fun a b => a ≤ b) (nonNull xs)
  let n := l.length
  if n = 0 then none
  else if n % 2 = 1 then some (l.getD (n / 2) 0)
  else some ((l.getD (n / 2 - 1) 0 + l.getD (n / 2) 0) / 2)

def omin (xs : List (Option ℚ)) : Option ℚ :=
  (nonNull xs).min?

def omax (xs : List (Option ℚ)) : Option ℚ :=
  (nonNull xs).max?

/-- Sample variance with `ddof=1`, `none` when fewer than two
observations (pandas yields `NaN` there). -/
def ovariance (xs : List (Option ℚ)) : Option ℚ :=
  let l := nonNull xs
  if l.length ≤ 1 then none
  else
    let m := l.sum / (l.length : ℚ)
    some ((l.map (fun x => (x - m) ^ 2)).sum / ((l.length : ℚ) - 1))

noncomputable def ostd (xs : List (Option ℚ)) : Option ℝ :=
  (ovariance xs).map (fun v => Real.sqrt (v : ℝ))

/-- Structured view of the JSON strings `aggregate_data` returns: the
success payload, the unknown-column error (with `available_columns`), the
unknown-operation error (with `valid_operations`), and the generic caught
exception branch. -/
inductive AggOutcome where
  | ok (column operation : String) (result : Option ℝ) (rowsAnalyzed : Nat)
  | columnNotFound (column : String) (availableColumns : List String)
  | invalidOperation (operation : String) (validOperations : List String)
  | raised (msg : String)

/-- Keys of the `operations_map` dict in `aggregate_data`, in insertion
order (this exact list is reported as `valid_operations`). -/
def valid_operations : List String :=
  ["sum", "mean", "median", "count", "min", "max", "std"]

/-- Count of non-null cells of any dtype (`Series.count`). -/
def Column.countNonNull (c : Column) : Nat :=
  (c.cells.filterMap id).length

/-- One numeric reduction of `aggregate_data`.  On a non-numeric column
the pandas reduction (or the final `float(...)` conversion) raises and the
source's `except` branch returns `{"error": ...}`; parseable-as-float
corner cases of string concatenation are not modelled, no claim depends on
them.  `count` works on every dtype. -/
noncomputable def runAgg (column operation : String) (rows : Nat)
    (col : Column) (f : List (Option ℚ) → Option ℝ) : AggOutcome :=
  if col.dtype = Dtype.numeric then
    AggOutcome.ok column operation (f col.nums) rows
  else
    AggOutcome.raised "aggregation is not supported for this dtype"

/-- Embedding of `aggregate_data`.  The optional pandas `df.query` filter
is abstracted as a frame-to-frame function (the source applies it before
the column check, so `available_columns` reflects the filtered frame;
`query` preserves columns).  Checks happen in source order: column first,
then operation. -/
noncomputable def aggregate_data (df : DataFrame) (column operation : String)
    (filterCondition : Option (DataFrame → DataFrame)) : AggOutcome :=
  let d := match filterCondition with
    | some f => f df
    | none => df
  match d.getCol column with
  | none => AggOutcome.columnNotFound column d.names
  | some col =>
    match operation with
    | "sum" => runAgg column operation d.height col (fun xs => some ((osum xs : ℚ) : ℝ))
    | "mean" => runAgg column operation d.height col (fun xs => (omean xs).map (fun q => (q : ℝ)))
    | "median" => runAgg column operation d.height col (fun xs => (omedian xs).map (fun q => (q : ℝ)))
    | "count" => AggOutcome.ok column operation (some (col.countNonNull : ℝ)) d.height
    | "min" => runAgg column operation d.height col (fun xs => (omin xs).map (fun q => (q : ℝ)))
    | "max" => runAgg column operation d.height col (fun xs => (omax xs).map (fun q => (q : ℝ)))
    | "std" => runAgg column operation d.height col ostd
    | _ => AggOutcome.invalidOperation operation valid_operations

/-! ## Group-by aggregation (`group_by_analysis`, `src/agent/tools.py`)

`df.groupby(group_cols)[agg_column].agg(op).reset_index()` followed by
`sort_values(by=agg_column, ascending=False)`.  Pandas `groupby` drops
rows whose group key has a null component (`dropna=True` default); the
aggregated value of a group can still be `NaN` (e.g. `mean` of an all-null
group), and `sort_values` places `NaN` last (`na_position='last'`). -/

/-- Cell of a column at a row index (out-of-range reads as missing; the
well-formedness hypothesis of the theorems rules that out). -/
def keyAt (c : Column) (i : Nat) : Option Value :=
  (c.cells.get? i).getD none

/-- Group key of row `i` over the group columns: `none` when any
component is null (such rows are dropped by `groupby`). -/
def rowKey (gcols : List Column) (i : Nat) : Option (List Value) :=
  if (gcols.map (fun c => keyAt c i)).all Option.isSome then
    some ((gcols.map (fun c => keyAt c i)).filterMap id)
  else
    none

/-- Numeric cell of the aggregation column at row `i`. -/
def numAt (c : Column) (i : Nat) : Option ℚ :=
  match keyAt c i with
  | some (.vnum q) => some q
  | _ => none

/-- The keyed rows that survive the groupby: (group key, agg cell) for
every row whose key is fully non-null. -/
def keyedRows (height : Nat) (gcols : List Column) (acol : Column) :
    List (List Value × Option ℚ) :=
  (List.range height).filterMap (fun i =>
    (rowKey gcols i).map (fun k => (k, numAt acol i)))

def group_operations : List String :=
  ["sum", "mean", "median", "count", "min", "max"]

def groupAgg (operation : String) (vals : List (Option ℚ)) : Option ℚ :=
  match operation with
  | "sum" => some (osum vals)
  | "mean" => omean vals
  | "median" => omedian vals
  | "count" => some (ocount vals : ℚ)
  | "min" => omin vals
  | "max" => omax vals
  | _ => none

/-- Descending comparison used for `sort_values(ascending=False)` on a
possibly-`NaN` aggregated value: `a` may precede `b` when `a ≥ b`, with
`NaN` (`none`) sorting last. -/
def descNaLast (a b : Option ℚ) : Bool :=
  match a, b with
  | some x, some y => decide (y ≤ x)
  | some _, none => true
  | none, some _ => false
  | none, none => true

/-- Structured view of the JSON strings `group_by_analysis` returns. -/
inductive GroupOutcome where
  | ok (groupBy : List String) (aggregatedColumn operation : String)
      (results : List (List Value × Option ℚ))
  | missingColumns (missing : List String) (availableColumns : List String)
  | aggColumnNotFound (column : String) (availableColumns : List String)
  | invalidOperation (operation : String) (validOperations : List String)
  | raised (msg : String)
deriving DecidableEq

/-- Python `str.split(',')` on the character list: split at every comma,
the empty string splitting to one empty field. -/
def splitCommas (l : List Char) : List (List Char) :=
  match l with
  | [] => [[]]
  | c :: rest =>
    if c = ',' then [] :: splitCommas rest
    else
      match splitCommas rest with
      | [] => [[c]]
      | w :: ws => (c :: w) :: ws

/-- Python `[col.strip() for col in group_columns.split(',')]`. -/
def splitGroupColumns (s : String) : List String :=
  (splitCommas s.toList).map (fun w => (pyStrip w).asString)

/-- Embedding of `group_by_analysis`.  Checks happen in source order:
missing group columns, then the aggregation column, then the operation.
When `agg_column` is itself a group column, `reset_index` raises
("cannot insert ..., already exists") and the source's `except` branch
returns `{"error": ...}`; likewise the pandas reduction raises on a
non-numeric aggregation column (`count` aside, a corner no claim uses).
Group enumeration order before the final sort is irrelevant to the
stated properties (ties may appear in either order). -/
def group_by_analysis (df : DataFrame)
    (group_columns agg_column agg_operation : String) : GroupOutcome :=
  let group_cols := splitGroupColumns group_columns
  let missing := group_cols.filter (fun c => df.getCol c |>.isNone)
  if missing ≠ [] then
    GroupOutcome.missingColumns missing df.names
  else
    match df.getCol agg_column with
    | none => GroupOutcome.aggColumnNotFound agg_column df.names
    | some acol =>
      if agg_operation ∈ group_operations then
        if agg_column ∈ group_cols then
          GroupOutcome.raised "cannot insert column, already exists"
        else if acol.dtype = Dtype.numeric then
          let gcols := group_cols.filterMap df.getCol
          let rows := keyedRows df.height gcols acol
          let keys := (rows.map Prod.fst).dedup
          let unsorted := keys.map (fun k =>
            (k, groupAgg agg_operation
              (rows.filterMap (fun r => if r.1 = k then some r.2 else none))))
          let sorted :=
            List.insertionSort (fun a b => descNaLast a.2 b.2 = true) unsorted
          GroupOutcome.ok group_cols agg_column agg_operation sorted
        else
          GroupOutcome.raised "aggregation is not supported for this dtype"
      else
        GroupOutcome.invalidOperation agg_operation group_operations

/-! ## Correlation (`calculate_correlation`, `src/agent/tools.py`)

`df[[c1, c2]].corr().iloc[0, 1]` is the Pearson coefficient over the
pairwise-complete observations (rows where both cells are non-null).
A zero denominator (fewer than two pairs, or a constant column) yields
`NaN`, modelled as `none`.  On `NaN` the source's comparisons
`abs(corr) < 0.3`, `abs(corr) < 0.7` and `corr > 0` are all `False`, so
the labels become `"strong"` and `"negative"`. -/

def pairedObs (xs ys : List (Option ℚ)) : List (ℚ × ℚ) :=
  (xs.zip ys).filterMap (fun p =>
    match p.1, p.2 with
    | some a, some b => some (a, b)
    | _, _ => none)

def sxx (l : List (ℚ × ℚ)) : ℚ :=
  (l.length : ℚ) * (l.map (fun p => p.1 ^ 2)).sum - ((l.map Prod.fst).sum) ^ 2

def syy (l : List (ℚ × ℚ)) : ℚ :=
  (l.length : ℚ) * (l.map (fun p => p.2 ^ 2)).sum - ((l.map Prod.snd).sum) ^ 2

def sxy (l : List (ℚ × ℚ)) : ℚ :=
  (l.length : ℚ) * (l.map (fun p => p.1 * p.2)).sum
    - (l.map Prod.fst).sum * (l.map Prod.snd).sum

noncomputable def pearson (xs ys : List (Option ℚ)) : Option ℝ :=
  let l := pairedObs xs ys
  if sxx l * syy l = 0 then none
  else some ((sxy l : ℝ) / Real.sqrt ((sxx l * syy l : ℚ) : ℝ))

/-- Python `round(x, 4)` on the coefficient (the rounding mode does not
matter to any stated property; equal inputs round equally). -/
noncomputable def round4 (x : ℝ) : ℝ :=
  (round (x * 10000) : ℤ) / 10000

noncomputable def strengthLabel (c : Option ℝ) : String :=
  match c with
  | none => "strong"
  | some r => if |r| < 0.3 then "weak" else if |r| < 0.7 then "moderate" else "strong"

noncomputable def directionLabel (c : Option ℝ) : String :=
  match c with
  | none => "negative"
  | some r => if 0 < r then "positive" else "negative"

noncomputable def interpretationOf (c : Option ℝ) : String :=
  strengthLabel c ++ " " ++ directionLabel c ++ " correlation"

/-- Structured view of the JSON strings `calculate_correlation` returns. -/
inductive CorrOutcome where
  | ok (column1 column2 : String) (coefficient : Option ℝ)
      (interpretation : String) (rowsAnalyzed : Nat)
  | columnNotFound (column : String) (availableColumns : List String)
  | notNumeric (column : String) (dtype : Dtype)

/-- Embedding of `calculate_correlation`.  Checks in source order:
`column1` present, `column2` present, `column1` numeric, `column2`
numeric.  `rows_analyzed` is `len(df.dropna(subset=[column1, column2]))`,
the number of rows where both cells are non-null. -/
noncomputable def calculate_correlation (df : DataFrame)
    (column1 column2 : String) : CorrOutcome :=
  match df.getCol column1 with
  | none => CorrOutcome.columnNotFound column1 df.names
  | some c1 =>
    match df.getCol column2 with
    | none => CorrOutcome.columnNotFound column2 df.names
    | some c2 =>
      if c1.dtype ≠ Dtype.numeric then
        CorrOutcome.notNumeric column1 c1.dtype
      else if c2.dtype ≠ Dtype.numeric then
        CorrOutcome.notNumeric column2 c2.dtype
      else
        let corr := pearson c1.nums c2.nums
        CorrOutcome.ok column1 column2 (corr.map round4)
          (interpretationOf corr) (pairedObs c1.nums c2.nums).length

/-! ## Trend analysis (`analyze_trend`, `src/agent/tools.py`)

The date column is coerced with `pd.to_datetime` when its dtype is not
already datetime, the frame is sorted ascending by the coerced dates
(`NaT` last), and first/last values are read off the sorted value column.
`percent_change` is `0` when the first value is exactly `0` (Python
`first_val != 0` is `True` for `NaN`, so a `NaN` first value propagates
`NaN`).  The ungrouped branch also reports
`"increasing" if change > 0 else "decreasing"`; the grouped branch emits
one block per (non-null) group key and no direction label. -/

/-- `pd.to_datetime` on the date column.  A datetime column is used as
is; a numeric column is interpreted as epoch offsets (order-preserving);
for a text column the parse may raise, which the source's `except` branch
turns into `{"error": ...}` — date-parseable strings are outside this
model, and the claims quantify over columns whose coercion succeeds. -/
def coerceDates (c : Column) : Option (List (Option ℚ)) :=
  match c.dtype with
  | .datetime => some (c.cells.map (fun cell =>
      match cell with
      | some (.vdate t) => some t
      | _ => none))
  | .numeric => some c.nums
  | .text => none

/-- Ascending comparison on (date, value) rows for
`sort_values(by=date_column)`: order by date with `NaT` last. -/
def dateAscNaLast (a b : Option ℚ × Option ℚ) : Bool :=
  match a.1, b.1 with
  | some x, some y => decide (x ≤ y)
  | some _, none => true
  | none, some _ => false
  | none, none => true

structure TrendBlock where
  firstValue : Option ℚ
  lastValue : Option ℚ
  change : Option ℚ
  percentChange : Option ℚ
deriving DecidableEq, Repr

def osub (a b : Option ℚ) : Option ℚ :=
  match a, b with
  | some x, some y => some (qsub x y)
  | _, _ => none

/-- Python `round(x, 2)` for `percent_change`, as round-half-up (the
exact tie-breaking mode is immaterial to every stated property;
`round(0, 2) = 0` either way). -/
def round2 (q : ℚ) : ℚ :=
  mkRat (qfloor (qadd (qmul q 100) (mkRat 1 2))) 100

/-- `(change / first_val * 100) if first_val != 0 else 0`, with `NaN`
(`none`) propagating through the arithmetic branch, then `round(_, 2)`. -/
def pctChange (first change : Option ℚ) : Option ℚ :=
  match first with
  | some f =>
    if f = 0 then some 0
    else change.map (fun c => round2 (qmul (qdiv c f) 100))
  | none => none

/-- Build the first/last/change/percent block from the date-sorted rows;
`none` when there are no rows (`iloc[0]` would raise `IndexError`). -/
def mkBlock (sorted : List (Option ℚ × Option ℚ)) : Option TrendBlock :=
  match sorted with
  | [] => none
  | f :: rest =>
    let firstVal := f.2
    let lastVal := ((f :: rest).getLast (by simp)).2
    some { firstValue := firstVal, lastValue := lastVal,
           change := osub lastVal firstVal,
           percentChange := pctChange firstVal (osub lastVal firstVal) }

/-- `"increasing" if change > 0 else "decreasing"` (`NaN > 0` is
`False`). -/
def trendDirection (change : Option ℚ) : String :=
  match change with
  | some c => if 0 < c then "increasing" else "decreasing"
  | none => "decreasing"

/-- The rows of the grouped branch: ((date, value), group cell) in row
order; rows with a null group cell are dropped by `groupby`. -/
def trendKeyed (dates vals : List (Option ℚ)) (gcol : Column) :
    List ((Option ℚ × Option ℚ) × Option Value) :=
  (dates.zip vals).zip gcol.cells

/-- Structured view of the JSON strings `analyze_trend` returns. -/
inductive TrendOutcome where
  | ok (dateColumn valueColumn : String) (block : TrendBlock) (direction : String)
  | okGrouped (dateColumn valueColumn groupColumn : String)
      (trends : List (Value × TrendBlock))
  | dateColumnNotFound (column : String) (availableColumns : List String)
  | valueColumnNotFound (column : String) (availableColumns : List String)
  | raised (msg : String)
deriving DecidableEq, Repr

/-- Embedding of `analyze_trend`.  Column checks in source order; then
the date coercion; a non-numeric value column makes `float(first_val)`
raise into the `except` branch; a missing group column raises `KeyError`
inside `groupby`.  Each group is re-sorted by date before its first/last
are taken (the source sorts the whole frame and each group again). -/
def analyze_trend (df : DataFrame) (date_column value_column : String)
    (groupby_column : Option String) : TrendOutcome :=
  match df.getCol date_column with
  | none => TrendOutcome.dateColumnNotFound date_column df.names
  | some dcol =>
    match df.getCol value_column with
    | none => TrendOutcome.valueColumnNotFound value_column df.names
    | some vcol =>
      match coerceDates dcol with
      | none => TrendOutcome.raised "to_datetime failed"
      | some dates =>
        if vcol.dtype ≠ Dtype.numeric then
          TrendOutcome.raised "could not convert value to float"
        else
          let vals := vcol.nums
          match groupby_column with
          | none =>
            let sorted := List.insertionSort
              (fun x y => dateAscNaLast x y = true) (dates.zip vals)
            match mkBlock sorted with
            | none => TrendOutcome.raised "index 0 is out of bounds"
            | some blk =>
              TrendOutcome.ok date_column value_column blk (trendDirection blk.change)
          | some gcName =>
            match df.getCol gcName with
            | none => TrendOutcome.raised "KeyError in groupby"
            | some gcol =>
              let keyed := trendKeyed dates vals gcol
              let rows := keyed.filterMap (fun r => r.2.map (fun k => (k, r.1)))
              let keys := (rows.map Prod.fst).dedup
              let trends := keys.filterMap (fun k =>
                (mkBlock (List.insertionSort (fun x y => dateAscNaLast x y = true)
                  (rows.filterMap (fun r =>
                    if r.1 = k then some r.2 else none)))).map
                  (fun blk => (k, blk)))
              TrendOutcome.okGrouped date_column value_column gcName trends

/-! ## Tabular store (`DataStore`, `src/data/storage.py`)

`get_dataframe` returns `sheets[sheet_name].copy()`: a fresh object whose
contents equal the stored frame.  To make Python aliasing explicit, frames
live on an addressed heap; the store keeps addresses, `copy()` allocates a
fresh address with the same contents, and a caller-side in-place mutation
writes through an address.  The claims then say that writing through the
returned address never changes what a later `get` observes. -/

structure Heap where
  cells : List DataFrame
deriving DecidableEq

def Heap.read (h : Heap) (a : Nat) : Option DataFrame :=
  h.cells.get? a

def Heap.alloc (h : Heap) (d : DataFrame) : Nat × Heap :=
  (h.cells.length, ⟨h.cells ++ [d]⟩)

def Heap.write (h : Heap) (a : Nat) (d : DataFrame) : Heap :=
  ⟨h.cells.set a d⟩

structure StoreState where
  heap : Heap
  datasets : List (String × List (String × Nat))
deriving DecidableEq

def StoreState.sheetsOf (st : StoreState) (dataset_id : String) :
    Option (List (String × Nat)) :=
  (st.datasets.find? (fun e => e.1 = dataset_id)).map Prod.snd

/-- All addresses held by the store point into the heap. -/
def StoreState.wf (st : StoreState) : Prop :=
  ∀ e ∈ st.datasets, ∀ s ∈ e.2, s.2 < st.heap.cells.length

/-- Address of the requested sheet inside the store's table (the lookup
part of `get_dataframe`: dataset check, then named sheet or first
sheet). -/
def sheetAddr (datasets : List (String × List (String × Nat)))
    (dataset_id : String) (sheet_name : Option String) : Except String Nat :=
  match (datasets.find? (fun e => e.1 = dataset_id)).map Prod.snd with
  | none => .error ("Dataset " ++ dataset_id ++ " not found")
  | some sheets =>
    match sheet_name with
    | some sn =>
      match sheets.find? (fun s => s.1 = sn) with
      | none => .error ("Sheet '" ++ sn ++ "' not found")
      | some s => .ok s.2
    | none =>
      match sheets with
      | [] => .error "list index out of range"
      | s :: _ => .ok s.2

/-- Embedding of `DataStore.get_dataframe`: look the sheet up (first
sheet when `sheet_name` is `None`), raise `ValueError` when the dataset
or the sheet is absent, and return a fresh copy of the stored frame (the
fresh address plus the grown heap).  The `dangling` error is a model
artifact, unreachable from well-formed states. -/
def get_dataframe (st : StoreState) (dataset_id : String)
    (sheet_name : Option String) : Except String (Nat × StoreState) :=
  match sheetAddr st.datasets dataset_id sheet_name with
  | .error e => .error e
  | .ok addr =>
    match st.heap.read addr with
    | none => .error "dangling address"
    | some df =>
      let (a, h) := st.heap.alloc df
      .ok (a, { st with heap := h })

/-- A caller mutating, in place, the frame a `get_dataframe` call handed
it: a heap write through that address.  The store's own address table is
untouched. -/
def mutateFrame (st : StoreState) (a : Nat) (f : DataFrame → DataFrame) :
    StoreState :=
  match st.heap.read a with
  | some d => { st with heap := st.heap.write a (f d) }
  | none => st

/-! ## Semantic index (`VectorStoreManager`, `src/rag/vector_store.py`)
and the upload/delete routes (`src/api/routes.py`)

`create_store` and `delete_store` both take the same non-reentrant
`threading.Lock`.  Acquiring a lock that is already held never returns;
that is modelled as the explicit outcome `deadlock`.  The Chroma
collection contents are irrelevant to the claims, so a store is just its
dataset id; the external calls that can fail (`Chroma.from_documents`,
`delete_collection`) are modelled by boolean success flags. -/

structure VectorStoreManager where
  stores : List String
  lockHeld : Bool
deriving DecidableEq

inductive VsmResult where
  | ok (st : VectorStoreManager)
  | raised (msg : String) (st : VectorStoreManager)
  | deadlock
deriving DecidableEq

/-- Embedding of `VectorStoreManager.create_store`.  When a store for the
id already exists, the source calls `self.delete_store` while still
holding `_store_lock`; `delete_store` then blocks forever trying to
acquire the same non-reentrant lock.  A `Chroma.from_documents` failure
(`embedOk = false`) is re-raised as `ValueError` with the lock released
and no store added. -/
def create_store (embedOk : Bool) (dataset_id : String)
    (s : VectorStoreManager) : VsmResult :=
  if s.lockHeld then .deadlock
  else if dataset_id ∈ s.stores then .deadlock
  else if embedOk then .ok { stores := dataset_id :: s.stores, lockHeld := false }
  else .raised "Failed to create vector store" { s with lockHeld := false }

/-- Embedding of `VectorStoreManager.delete_store`.  A failing
`delete_collection` (`chromaOk = false`) is only logged; the entry is
removed from `_stores` regardless. -/
def delete_store (chromaOk : Bool) (dataset_id : String)
    (s : VectorStoreManager) : VsmResult :=
  if s.lockHeld then .deadlock
  else if dataset_id ∈ s.stores then
    let _ := chromaOk
    .ok { stores := s.stores.erase dataset_id, lockHeld := false }
  else .raised ("Vector store for dataset " ++ dataset_id ++ " not found") s

def store_exists (dataset_id : String) (s : VectorStoreManager) : Bool :=
  dataset_id ∈ s.stores

/-- Dataset-id level view of the `DataStore` for the lifecycle claims
(sheet contents are irrelevant there). -/
structure DataStoreIds where
  datasets : List String
deriving DecidableEq

def add_dataset (dataset_id : String) (s : DataStoreIds) : DataStoreIds :=
  if dataset_id ∈ s.datasets then s else { datasets := dataset_id :: s.datasets }

def delete_dataset (dataset_id : String) (s : DataStoreIds) :
    Except String DataStoreIds :=
  if dataset_id ∈ s.datasets then .ok { datasets := s.datasets.erase dataset_id }
  else .error ("Dataset " ++ dataset_id ++ " not found")

def dataset_exists (dataset_id : String) (s : DataStoreIds) : Bool :=
  dataset_id ∈ s.datasets

structure SystemState where
  data : DataStoreIds
  vsm : VectorStoreManager
deriving DecidableEq

def initialSystem : SystemState :=
  ⟨⟨[]⟩, ⟨[], false⟩⟩

inductive RouteOutcome where
  | ok
  | httpError (code : Nat)
  | hang
deriving DecidableEq

/-- Embedding of the `upload_excel` route body from the point the parsed
sheets exist: `data_store.add_dataset` then
`vector_store_manager.create_store`.  A `ValueError` from `create_store`
becomes HTTP 422 — with no rollback of the data store. -/
def upload_excel (embedOk : Bool) (dataset_id : String) (st : SystemState) :
    RouteOutcome × SystemState :=
  let d := add_dataset dataset_id st.data
  match create_store embedOk dataset_id st.vsm with
  | .ok v => (.ok, ⟨d, v⟩)
  | .raised _ v => (.httpError 422, ⟨d, v⟩)
  | .deadlock => (.hang, ⟨d, { st.vsm with lockHeld := true }⟩)

/-- Embedding of the `delete_dataset` route: existence check (404),
delete from the data store, then delete the vector store only when one
exists. -/
def delete_dataset_route (chromaOk : Bool) (dataset_id : String)
    (st : SystemState) : RouteOutcome × SystemState :=
  if ¬ dataset_exists dataset_id st.data then (.httpError 404, st)
  else
    match delete_dataset dataset_id st.data with
    | .error _ => (.httpError 500, st)
    | .ok d =>
      if store_exists dataset_id st.vsm then
        match delete_store chromaOk dataset_id st.vsm with
        | .ok v => (.ok, ⟨d, v⟩)
        | .raised _ v => (.httpError 500, ⟨d, v⟩)
        | .deadlock => (.hang, ⟨d, { st.vsm with lockHeld := true }⟩)
      else (.ok, ⟨d, st.vsm⟩)

inductive ApiOp where
  | ingest (dataset_id : String) (embedOk : Bool)
  | remove (dataset_id : String) (chromaOk : Bool)

def applyOp (op : ApiOp) (st : SystemState) : SystemState :=
  match op with
  | .ingest id ok => (upload_excel ok id st).2
  | .remove id ok => (delete_dataset_route ok id st).2

def runOps (ops : List ApiOp) (st : SystemState) : SystemState :=
  match ops with
  | [] => st
  | op :: rest => runOps rest (applyOp op st)

/-- A trace in which every ingestion's index creation succeeds and every
ingested id is fresh for the semantic index at the moment of its upload —
exactly the situation the route produces, since ids are fresh `uuid4`
values and `embedOk` says `Chroma.from_documents` succeeded. -/
def cleanTrace (ops : List ApiOp) (st : SystemState) : Bool :=
  match ops with
  | [] => true
  | .ingest id ok :: rest =>
    ok && !(id ∈ st.vsm.stores) && cleanTrace rest (applyOp (.ingest id ok) st)
  | .remove id ok :: rest =>
    cleanTrace rest (applyOp (.remove id ok) st)

/-! ## Agent loop and settings (`src/agent/executor.py`,
`src/config/settings.py`)

`Settings` carries `max_iterations: int = 10`, which `DataAnalysisAgent
.query` passes to the LangChain `AgentExecutor` as its step budget. -/

structure Settings where
  model_name : String := "gemini-2.0-flash-exp"
  max_iterations : Nat := 10

def settings : Settings := {}

/-- Modelled from the spec: the think-act-observe loop itself lives in
the external LangChain `AgentExecutor` (only configured in
`src/agent/executor.py`), so the §4.5 state machine is modelled here: the
reasoning capability returns an action, a final answer, or a malformed
response; malformed responses become recoverable observations; the loop
stops on a final answer or when the step budget runs out, in the latter
case with the executor's explicit stopped indicator. -/
inductive ReasonOutput where
  | action (name args : String)
  | finalAnswer (text : String)
  | malformed (text : String)

structure StepRecord where
  step : Nat
  action : String
  actionInput : String
  observation : String

structure AgentOutcome where
  answer : String
  exhausted : Bool
  steps : List StepRecord

/-- Observation truncation to 500 characters (`str(observation)[:500]` in
`DataAnalysisAgent.query`). -/
def truncateObs (s : String) : String :=
  (s.toList.take 500).asString

def exhaustedAnswer : String :=
  "Agent stopped due to iteration limit or time limit."

/-- Modelled from the spec: one reason-act-observe loop, structurally
recursive on the remaining step budget, appending one step record per
cycle (malformed responses consume a cycle with a retry observation). -/
def agentLoop (reason : List StepRecord → ReasonOutput)
    (execAct : String → String → String) :
    Nat → List StepRecord → AgentOutcome
  | 0, trace =>
    { answer := exhaustedAnswer, exhausted := true, steps := trace.reverse }
  | n + 1, trace =>
    match reason trace.reverse with
    | .finalAnswer t =>
      { answer := t, exhausted := false, steps := trace.reverse }
    | .action name args =>
      agentLoop reason execAct n
        ({ step := trace.length + 1, action := name, actionInput := args,
           observation := truncateObs (execAct name args) } :: trace)
    | .malformed _ =>
      agentLoop reason execAct n
        ({ step := trace.length + 1, action := "invalid_format",
           actionInput := "",
           observation := "could not parse, please retry in the required format" }
          :: trace)

/-- Modelled from the spec: a query runs the loop with the configured
`settings.max_iterations` budget and an empty transcript. -/
def runQuery (reason : List StepRecord → ReasonOutput)
    (execAct : String → String → String) : AgentOutcome :=
  agentLoop reason execAct settings.max_iterations []

/-! ## Concrete sample data for evaluating the theorems -/

def colX : Column :=
  ⟨"x", Dtype.numeric, [some (.vnum 1), some (.vnum 2), some (.vnum 3)]⟩

def colY : Column :=
  ⟨"y", Dtype.numeric, [some (.vnum 2), some (.vnum 4), some (.vnum 5)]⟩

def colRegion : Column :=
  ⟨"region", Dtype.text,
    [some (.vstr "north"), some (.vstr "south"), some (.vstr "north")]⟩

def colDate : Column :=
  ⟨"date", Dtype.datetime, [some (.vdate 3), some (.vdate 1), some (.vdate 2)]⟩

def sampleDf : DataFrame :=
  ⟨[colX, colY, colRegion, colDate]⟩

def dfTrendW : DataFrame :=
  ⟨[⟨"d", Dtype.datetime, [some (.vdate 1), some (.vdate 2)]⟩,
    ⟨"v", Dtype.numeric, [some (.vnum 5), some (.vnum 5)]⟩]⟩

def sampleStore : StoreState :=
  ⟨⟨[sampleDf]⟩, [("ds1", [("Sheet1", 0)])]⟩

def stubReason : List StepRecord → ReasonOutput :=
  fun _ => ReasonOutput.action "get_data_sample" "5"

def stubExec : String → String → String :=
  fun _ _ => "observation"

/-! ## Helper lemmas -/

theorem qadd_eq (a b : ℚ) : qadd a b = a + b := by
  rw [qadd, Rat.mkRat_eq_div]
  conv_rhs => rw [← Rat.num_div_den a, ← Rat.num_div_den b]
  have ha : ((a.den : ℚ)) ≠ 0 := by
    exact_mod_cast a.den_nz
  have hb : ((b.den : ℚ)) ≠ 0 := by
    exact_mod_cast b.den_nz
  push_cast
  field_simp
  try ring

theorem qsub_eq (a b : ℚ) : qsub a b = a - b := by
  rw [qsub, Rat.mkRat_eq_div]
  conv_rhs => rw [← Rat.num_div_den a, ← Rat.num_div_den b]
  have ha : ((a.den : ℚ)) ≠ 0 := by
    exact_mod_cast a.den_nz
  have hb : ((b.den : ℚ)) ≠ 0 := by
    exact_mod_cast b.den_nz
  push_cast
  field_simp
  try ring

theorem qmul_eq (a b : ℚ) : qmul a b = a * b := by
  rw [qmul, Rat.mkRat_eq_div]
  conv_rhs => rw [← Rat.num_div_den a, ← Rat.num_div_den b]
  have ha : ((a.den : ℚ)) ≠ 0 := by
    exact_mod_cast a.den_nz
  have hb : ((b.den : ℚ)) ≠ 0 := by
    exact_mod_cast b.den_nz
  push_cast
  field_simp
  try ring

theorem qdiv_eq (a b : ℚ) : qdiv a b = a / b := by
  rcases eq_or_ne b 0 with hb | hb
  · subst hb
    simp [qdiv]
  · have hbn : b.num ≠ 0 := Rat.num_ne_zero.mpr hb
    rw [qdiv, Rat.divInt_eq_div]
    conv_rhs => rw [← Rat.num_div_den a, ← Rat.num_div_den b]
    have ha : ((a.den : ℚ)) ≠ 0 := by
      exact_mod_cast a.den_nz
    have hb' : ((b.den : ℚ)) ≠ 0 := by
      exact_mod_cast b.den_nz
    have hbn' : ((b.num : ℚ)) ≠ 0 := by
      exact_mod_cast hbn
    push_cast
    field_simp
    try ring

theorem agentLoop_never_final (reason : List StepRecord → ReasonOutput)
    (execAct : String → String → String)
    (h : ∀ tr t, reason tr ≠ ReasonOutput.finalAnswer t) :
    ∀ n trace,
      (agentLoop reason execAct n trace).exhausted = true ∧
      (agentLoop reason execAct n trace).answer = exhaustedAnswer ∧
      (agentLoop reason execAct n trace).steps.length = n + trace.length := by
  intro n
  induction n with
  | zero => intro trace; simp [agentLoop]
  | succ n ih =>
    intro trace
    cases hr : reason trace.reverse with
    | finalAnswer t => exact absurd hr (h _ _)
    | action name args =>
      simp only [agentLoop, hr]
      obtain ⟨h1, h2, h3⟩ := ih
        ({ step := trace.length + 1, action := name, actionInput := args,
           observation := truncateObs (execAct name args) } :: trace)
      exact ⟨h1, h2, by rw [h3]; simp; omega⟩
    | malformed t =>
      simp only [agentLoop, hr]
      obtain ⟨h1, h2, h3⟩ := ih
        ({ step := trace.length + 1, action := "invalid_format",
           actionInput := "",
           observation := "could not parse, please retry in the required format" }
          :: trace)
      exact ⟨h1, h2, by rw [h3]; simp; omega⟩

theorem runOps_invariant (ops : List ApiOp) :
    ∀ st : SystemState,
      st.vsm.lockHeld = false →
      st.data.datasets.Nodup →
      st.vsm.stores.Nodup →
      (∀ id, id ∈ st.data.datasets ↔ id ∈ st.vsm.stores) →
      cleanTrace ops st = true →
      (runOps ops st).vsm.lockHeld = false ∧
      (runOps ops st).data.datasets.Nodup ∧
      (runOps ops st).vsm.stores.Nodup ∧
      (∀ id, id ∈ (runOps ops st).data.datasets ↔
        id ∈ (runOps ops st).vsm.stores) := by
  induction ops with
  | nil => intro st h1 h2 h3 h4 _; exact ⟨h1, h2, h3, h4⟩
  | cons op rest ih =>
    intro st h1 h2 h3 h4 hclean
    cases op with
    | ingest id ok =>
      simp only [cleanTrace, Bool.and_eq_true, Bool.not_eq_true',
        decide_eq_false_iff_not] at hclean
      obtain ⟨⟨hok, hfresh⟩, hrest⟩ := hclean
      subst hok
      have hidd : id ∉ st.data.datasets := fun hmem => hfresh ((h4 id).mp hmem)
      have happ : applyOp (ApiOp.ingest id true) st =
          ⟨⟨id :: st.data.datasets⟩, ⟨id :: st.vsm.stores, false⟩⟩ := by
        simp [applyOp, upload_excel, create_store, h1, hfresh, add_dataset, hidd]
      rw [runOps, happ]
      rw [happ] at hrest
      refine ih _ rfl ?_ ?_ ?_ hrest
      · exact List.nodup_cons.mpr ⟨hidd, h2⟩
      · exact List.nodup_cons.mpr ⟨hfresh, h3⟩
      · intro x
        simp only [List.mem_cons]
        exact or_congr Iff.rfl (h4 x)
    | remove id ok =>
      simp only [cleanTrace] at hclean
      by_cases hmem : id ∈ st.data.datasets
      · have hmem' : id ∈ st.vsm.stores := (h4 id).mp hmem
        have happ : applyOp (ApiOp.remove id ok) st =
            ⟨⟨st.data.datasets.erase id⟩, ⟨st.vsm.stores.erase id, false⟩⟩ := by
          simp [applyOp, delete_dataset_route, dataset_exists, hmem,
            delete_dataset, store_exists, hmem', delete_store, h1]
        rw [runOps, happ]
        rw [happ] at hclean
        refine ih _ rfl (h2.erase id) (h3.erase id) ?_ hclean
        intro x
        by_cases hx : x = id
        · subst hx
          simp [h2.not_mem_erase, h3.not_mem_erase]
        · rw [List.mem_erase_of_ne hx, List.mem_erase_of_ne hx]
          exact h4 x
      · have happ : applyOp (ApiOp.remove id ok) st = st := by
          simp [applyOp, delete_dataset_route, dataset_exists, hmem]
        rw [runOps, happ]
        rw [happ] at hclean
        exact ih st h1 h2 h3 h4 hclean

theorem delete_route_clears (st : SystemState) (id : String) (chromaOk : Bool)
    (h1 : st.vsm.lockHeld = false)
    (h2 : st.data.datasets.Nodup) (h3 : st.vsm.stores.Nodup)
    (h4 : ∀ x, x ∈ st.data.datasets ↔ x ∈ st.vsm.stores) :
    id ∉ (delete_dataset_route chromaOk id st).2.data.datasets ∧
    id ∉ (delete_dataset_route chromaOk id st).2.vsm.stores := by
  by_cases hmem : id ∈ st.data.datasets
  · have hmem' : id ∈ st.vsm.stores := (h4 id).mp hmem
    have : delete_dataset_route chromaOk id st =
        (RouteOutcome.ok, ⟨⟨st.data.datasets.erase id⟩,
          ⟨st.vsm.stores.erase id, false⟩⟩) := by
      simp [delete_dataset_route, dataset_exists, hmem, delete_dataset,
        store_exists, hmem', delete_store, h1]
    rw [this]
    exact ⟨h2.not_mem_erase, h3.not_mem_erase⟩
  · have : delete_dataset_route chromaOk id st = (RouteOutcome.httpError 404, st) := by
      simp [delete_dataset_route, dataset_exists, hmem]
    rw [this]
    exact ⟨hmem, fun hc => hmem ((h4 id).mpr hc)⟩

theorem sheetAddr_lt (st : StoreState) (hwf : st.wf) (id : String)
    (sn : Option String) (addr : Nat)
    (h : sheetAddr st.datasets id sn = .ok addr) :
    addr < st.heap.cells.length := by
  unfold sheetAddr at h
  cases hf : st.datasets.find? (fun e => e.1 = id) with
  | none => rw [hf] at h; simp at h
  | some e =>
    rw [hf] at h
    have he : e ∈ st.datasets := List.mem_of_find?_eq_some hf
    simp only [Option.map_some'] at h
    cases sn with
    | some sn =>
      dsimp only at h
      cases hs : e.2.find? (fun s => s.1 = sn) with
      | none => rw [hs] at h; simp at h
      | some s =>
        rw [hs] at h
        have hsm : s ∈ e.2 := List.mem_of_find?_eq_some hs
        injection h with h
        exact h ▸ hwf e he s hsm
    | none =>
      dsimp only at h
      cases hsheets : e.2 with
      | nil => rw [hsheets] at h; simp at h
      | cons s rest =>
        rw [hsheets] at h
        injection h with h
        exact h ▸ hwf e he s (hsheets ▸ List.mem_cons_self s rest)

theorem descNaLast_total (a b : Option ℚ) :
    descNaLast a b || descNaLast b a := by
  cases a with
  | none => cases b <;> simp [descNaLast]
  | some x =>
    cases b with
    | none => simp [descNaLast]
    | some y => rcases le_total x y with h | h <;> simp [descNaLast, h]

theorem descNaLast_trans (a b c : Option ℚ)
    (hab : descNaLast a b) (hbc : descNaLast b c) : descNaLast a c := by
  cases a <;> cases b <;> cases c <;>
    simp_all [descNaLast] <;> exact le_trans hbc hab

theorem pairedObs_swap (xs ys : List (Option ℚ)) :
    pairedObs ys xs = (pairedObs xs ys).map Prod.swap := by
  unfold pairedObs
  rw [← List.zip_swap xs ys, List.filterMap_map, List.map_filterMap]
  apply List.filterMap_congr
  intro p _
  rcases p with ⟨x, y⟩
  rcases x with _ | x <;> rcases y with _ | y <;> rfl

theorem sxx_swap (l : List (ℚ × ℚ)) : sxx (l.map Prod.swap) = syy l := by
  simp [sxx, syy, List.map_map, Function.comp_def]

theorem syy_swap (l : List (ℚ × ℚ)) : syy (l.map Prod.swap) = sxx l := by
  simp [sxx, syy, List.map_map, Function.comp_def]

theorem sxy_swap (l : List (ℚ × ℚ)) : sxy (l.map Prod.swap) = sxy l := by
  simp only [sxy, List.map_map, List.length_map, Function.comp_def,
    Prod.fst_swap, Prod.snd_swap]
  rw [List.map_congr_left (l := l)
    (g := fun p : ℚ × ℚ => p.1 * p.2) (fun p _ => by simp [mul_comm])]
  ring

theorem pearson_swap (xs ys : List (Option ℚ)) :
    pearson ys xs = pearson xs ys := by
  unfold pearson
  dsimp only
  rw [pairedObs_swap, sxx_swap, syy_swap, sxy_swap,
    mul_comm (syy (pairedObs xs ys)) (sxx (pairedObs xs ys))]

theorem dateAscNaLast_total (a b : Option ℚ × Option ℚ) :
    dateAscNaLast a b || dateAscNaLast b a := by
  rcases a with ⟨a1, a2⟩
  rcases b with ⟨b1, b2⟩
  cases a1 with
  | none => cases b1 <;> simp [dateAscNaLast]
  | some x =>
    cases b1 with
    | none => simp [dateAscNaLast]
    | some y => rcases le_total x y with h | h <;> simp [dateAscNaLast, h]

theorem dateAscNaLast_trans (a b c : Option ℚ × Option ℚ)
    (hab : dateAscNaLast a b) (hbc : dateAscNaLast b c) :
    dateAscNaLast a c := by
  rcases a with ⟨a1, _⟩
  rcases b with ⟨b1, _⟩
  rcases c with ⟨c1, _⟩
  cases a1 <;> cases b1 <;> cases c1 <;>
    simp_all [dateAscNaLast] <;> exact le_trans hab hbc

theorem mkBlock_isSome (l : List (Option ℚ × Option ℚ)) (h : l ≠ []) :
    ∃ blk, mkBlock l = some blk := by
  cases l with
  | nil => exact absurd rfl h
  | cons f rest => exact ⟨_, rfl⟩

theorem mkBlock_fields (l : List (Option ℚ × Option ℚ)) (blk : TrendBlock)
    (h : mkBlock l = some blk) :
    l.head?.map Prod.snd = some blk.firstValue ∧
    l.getLast?.map Prod.snd = some blk.lastValue ∧
    (blk.firstValue = some 0 → blk.percentChange = some 0) := by
  cases l with
  | nil => cases h
  | cons f rest =>
    simp only [mkBlock] at h
    injection h with h
    subst h
    refine ⟨rfl, ?_, ?_⟩
    · rw [List.getLast?_eq_getLast (f :: rest) (by simp)]
      rfl
    · intro h0
      simp only at h0 ⊢
      simp [pctChange, h0]

theorem map_fst_filterMap_keyed {α β : Type} (f : α → Option (α × β))
    (l : List α) (h : ∀ a ∈ l, ∃ b, f a = some (a, b)) :
    (l.filterMap f).map Prod.fst = l := by
  induction l with
  | nil => rfl
  | cons a rest ih =>
    obtain ⟨b, hb⟩ := h a (List.mem_cons_self a rest)
    simp only [List.filterMap_cons, hb, List.map_cons]
    rw [ih (fun x hx => h x (List.mem_cons_of_mem a hx))]

theorem trendDirection_spec (change : Option ℚ) :
    (trendDirection change = "increasing" ↔ ∃ c, change = some c ∧ 0 < c) ∧
    (change = some 0 → trendDirection change = "decreasing") := by
  constructor
  · cases change with
    | none =>
      constructor
      · intro habs; exact absurd habs (by decide)
      · rintro ⟨c, hc, _⟩; cases hc
    | some c =>
      simp only [trendDirection]
      split_ifs with hpos
      · exact ⟨fun _ => ⟨c, rfl, hpos⟩, fun _ => rfl⟩
      · constructor
        · intro habs; exact absurd habs (by decide)
        · rintro ⟨c', hc', hp⟩
          injection hc' with hc'
          subst hc'
          exact absurd hp hpos
  · intro h0
    rw [h0]
    simp [trendDirection]

/-! ## Claim theorems -/

/-- C1: for every query whose reasoning capability never emits a final
answer, the agent loop terminates after the configured maximum step count
(default 10) and returns a non-crashing, explicit budget-exhausted
response (the loop is a total function, so termination is by
construction). -/
theorem c1_budget_exhaustion (reason : List StepRecord → ReasonOutput)
    (execAct : String → String → String)
    (h : ∀ tr t, reason tr ≠ ReasonOutput.finalAnswer t) :
    (runQuery reason execAct).exhausted = true ∧
    (runQuery reason execAct).answer = exhaustedAnswer ∧
    (runQuery reason execAct).steps.length = settings.max_iterations ∧
    settings.max_iterations = 10 := by
  obtain ⟨h1, h2, h3⟩ :=
    agentLoop_never_final reason execAct h settings.max_iterations []
  exact ⟨h1, h2, by simpa using h3, rfl⟩

/-- C1 witness: a reasoning stub that always asks for another action
exhausts the default budget of 10 steps. -/
theorem c1_budget_exhaustion_witness :
    (runQuery stubReason stubExec).exhausted = true ∧
    (runQuery stubReason stubExec).answer = exhaustedAnswer ∧
    (runQuery stubReason stubExec).steps.length = settings.max_iterations ∧
    settings.max_iterations = 10 :=
  c1_budget_exhaustion stubReason stubExec
    (fun _ _ hc => ReasonOutput.noConfusion hc)

/-- C2 counterexample: a single ingestion whose semantic-index creation
fails (the `Chroma.from_documents` call raises) leaves the dataset in the
Tabular Store with no Semantic Index entry — the upload route returns
HTTP 422 without rolling the data store back, so the claimed
present-in-one-iff-present-in-the-other invariant does not hold for every
operation sequence. -/
theorem c2_counterexample :
    dataset_exists "d1" (runOps [ApiOp.ingest "d1" false] initialSystem).data = true ∧
    store_exists "d1" (runOps [ApiOp.ingest "d1" false] initialSystem).vsm = false ∧
    (upload_excel false "d1" initialSystem).1 = RouteOutcome.httpError 422 := by
  decide

/-- C2 amended: over every sequence of ingestions and deletions in which
each ingestion's index creation succeeds and each ingested id is fresh
for the index (as the route's `uuid4` ids are), a dataset id is in the
Tabular Store iff it is in the Semantic Index; and deleting any id from
the resulting state leaves both `exists` checks false — even when the
collection-level Chroma delete fails (`chromaOk = false`). -/
theorem c2_lifecycle_invariant (ops : List ApiOp)
    (h : cleanTrace ops initialSystem = true) :
    (∀ id, dataset_exists id (runOps ops initialSystem).data =
      store_exists id (runOps ops initialSystem).vsm) ∧
    (∀ id chromaOk,
      dataset_exists id (delete_dataset_route chromaOk id
        (runOps ops initialSystem)).2.data = false ∧
      store_exists id (delete_dataset_route chromaOk id
        (runOps ops initialSystem)).2.vsm = false) := by
  obtain ⟨h1, h2, h3, h4⟩ := runOps_invariant ops initialSystem rfl
    (by simp [initialSystem]) (by simp [initialSystem])
    (by simp [initialSystem]) h
  constructor
  · intro id
    simp only [dataset_exists, store_exists]
    exact decide_eq_decide.mpr (h4 id)
  · intro id chromaOk
    obtain ⟨hd, hv⟩ := delete_route_clears (runOps ops initialSystem) id chromaOk
      h1 h2 h3 h4
    constructor
    · simp only [dataset_exists]
      exact decide_eq_false hd
    · simp only [store_exists]
      exact decide_eq_false hv

/-- C2 witness: a concrete clean trace — upload a, delete a (with the
collection delete failing), upload b — satisfies the invariant, and a
subsequent delete of b clears both stores. -/
theorem c2_lifecycle_invariant_witness :
    cleanTrace [ApiOp.ingest "a" true, ApiOp.remove "a" false,
      ApiOp.ingest "b" true] initialSystem = true ∧
    dataset_exists "b" (runOps [ApiOp.ingest "a" true, ApiOp.remove "a" false,
      ApiOp.ingest "b" true] initialSystem).data =
      store_exists "b" (runOps [ApiOp.ingest "a" true, ApiOp.remove "a" false,
        ApiOp.ingest "b" true] initialSystem).vsm ∧
    dataset_exists "b" (delete_dataset_route false "b"
      (runOps [ApiOp.ingest "a" true, ApiOp.remove "a" false,
        ApiOp.ingest "b" true] initialSystem)).2.data = false ∧
    store_exists "b" (delete_dataset_route false "b"
      (runOps [ApiOp.ingest "a" true, ApiOp.remove "a" false,
        ApiOp.ingest "b" true] initialSystem)).2.vsm = false :=
  ⟨by decide,
   (c2_lifecycle_invariant _ (by decide)).1 "b",
   ((c2_lifecycle_invariant _ (by decide)).2 "b" false).1,
   ((c2_lifecycle_invariant _ (by decide)).2 "b" false).2⟩

/-- C3 counterexample: the distinct original names `"A B"` and `"a_b"`
normalize to the same name, and the ingestion cleaning step silently
returns the duplicated labels — no conflict of any kind is surfaced. -/
theorem c3_counterexample :
    normalize_column "A B" = "a_b" ∧ normalize_column "a_b" = "a_b" ∧
    "A B" ≠ "a_b" ∧ clean_columns ["A B", "a_b"] = ["a_b", "a_b"] := by
  decide

/-- C3 amended: normalization at ingestion performs no collision check;
the cleaning step normalizes every name independently and keeps the full
list (colliding names survive as duplicate labels, neither merged nor
reported). -/
theorem c3_collisions_silently_kept (names : List String) :
    clean_columns names = names.map normalize_column ∧
    (clean_columns names).length = names.length := by
  constructor
  · simp only [clean_columns, List.map_map]
    rfl
  · simp [clean_columns]

/-- C4: evaluating `create_store` at the failing input.  With a store
already present for the id, `create_store` deadlocks — it calls
`delete_store` while holding the non-reentrant `_store_lock` — instead of
replacing the store as the spec (and the source's own log message) says;
on a fresh id the same call succeeds. -/
theorem c4_create_store_deadlocks :
    create_store true "d1" ⟨["d1"], false⟩ = VsmResult.deadlock ∧
    create_store true "d2" ⟨["d1"], false⟩ =
      VsmResult.ok ⟨["d2", "d1"], false⟩ := by
  decide

/-- C5: every read from the Tabular Store returns an independent copy of
the stored table: `get_dataframe` hands out a freshly allocated frame
(`.copy()`), so mutating it in place — a heap write through the returned
address — never changes what a subsequent `get` of the same dataset and
sheet observes. -/
theorem c5_reads_are_copies (st : StoreState) (id : String) (sn : Option String)
    (a₁ : Nat) (st₁ : StoreState) (df₀ : DataFrame) (f : DataFrame → DataFrame)
    (hwf : st.wf)
    (hget : get_dataframe st id sn = Except.ok (a₁, st₁))
    (hread : st₁.heap.read a₁ = some df₀) :
    ∃ a₂ st₂,
      get_dataframe (mutateFrame st₁ a₁ f) id sn = Except.ok (a₂, st₂) ∧
      st₂.heap.read a₂ = some df₀ := by
  unfold get_dataframe at hget
  cases ha : sheetAddr st.datasets id sn with
  | error e => rw [ha] at hget; simp at hget
  | ok addr =>
    simp only [ha] at hget
    cases hr : st.heap.read addr with
    | none => rw [hr] at hget; simp at hget
    | some df =>
      simp only [hr, Heap.alloc] at hget
      rw [Except.ok.injEq, Prod.mk.injEq] at hget
      obtain ⟨ha₁, hst₁⟩ := hget
      subst ha₁
      subst hst₁
      have haddr : addr < st.heap.cells.length :=
        sheetAddr_lt st hwf id sn addr ha
      have hdf : df = df₀ := by
        simpa [Heap.read, List.get?_concat_length] using hread
      subst hdf
      have hmut : mutateFrame { st with heap := ⟨st.heap.cells ++ [df]⟩ }
          st.heap.cells.length f
          = { st with heap :=
              ⟨(st.heap.cells ++ [df]).set st.heap.cells.length (f df)⟩ } := by
        simp [mutateFrame, Heap.read, Heap.write, List.get?_concat_length]
      rw [hmut]
      unfold get_dataframe
      have hr₂ : Heap.read
          ⟨(st.heap.cells ++ [df]).set st.heap.cells.length (f df)⟩ addr
          = some df := by
        simp only [Heap.read]
        rw [List.get?_set_ne _ _ (Nat.ne_of_lt haddr).symm]
        rw [List.get?_append haddr]
        simpa [Heap.read] using hr
      simp only [ha, hr₂, Heap.alloc]
      exact ⟨_, _, rfl, by
        simp only [Heap.read]
        exact List.get?_concat_length _ _⟩

/-- C5 witness: on a concrete one-dataset store, reading `Sheet1`,
overwriting the returned frame with an empty frame, and reading again
still observes the originally stored contents. -/
theorem c5_reads_are_copies_witness :
    ∃ a₂ st₂,
      get_dataframe
        (mutateFrame ⟨⟨[sampleDf, sampleDf]⟩, [("ds1", [("Sheet1", 0)])]⟩ 1
          (fun _ => ⟨[]⟩))
        "ds1" (some "Sheet1") = Except.ok (a₂, st₂) ∧
      st₂.heap.read a₂ = some sampleDf :=
  c5_reads_are_copies sampleStore "ds1" (some "Sheet1") 1
    ⟨⟨[sampleDf, sampleDf]⟩, [("ds1", [("Sheet1", 0)])]⟩ sampleDf (fun _ => ⟨[]⟩)
    (by
      intro e he s hs
      simp only [sampleStore, List.mem_singleton] at he
      subst he
      simp only [List.mem_singleton] at hs
      subst hs
      decide)
    (by rfl) (by decide)

/-- C7: with valid group and aggregate columns, the group-aggregate
result is sorted descending by the aggregated value (`NaN` aggregates
last, per `na_position='last'`) and contains every distinct group key
present in the input — a key being the tuple of non-null group-cell
values of a row, since `groupby` drops null keys — exactly once. -/
theorem c7_group_aggregate (df : DataFrame) (gstr ac op : String) (acol : Column)
    (hmiss : (splitGroupColumns gstr).filter (fun c => (df.getCol c).isNone) = [])
    (hacol : df.getCol ac = some acol)
    (hnum : acol.dtype = Dtype.numeric)
    (hop : op ∈ group_operations)
    (hnog : ac ∉ splitGroupColumns gstr) :
    ∃ results,
      group_by_analysis df gstr ac op =
        GroupOutcome.ok (splitGroupColumns gstr) ac op results ∧
      (results.map Prod.fst).Nodup ∧
      (∀ k, k ∈ results.map Prod.fst ↔
        ∃ i, i < df.height ∧
          rowKey ((splitGroupColumns gstr).filterMap df.getCol) i = some k) ∧
      (results.map Prod.snd).Pairwise (fun a b => descNaLast a b = true) := by
  haveI hto : IsTotal (List Value × Option ℚ)
      (fun a b => descNaLast a.2 b.2 = true) :=
    ⟨fun a b => Bool.or_eq_true _ _ |>.mp (descNaLast_total a.2 b.2)⟩
  haveI htr : IsTrans (List Value × Option ℚ)
      (fun a b => descNaLast a.2 b.2 = true) :=
    ⟨fun a b c hab hbc => descNaLast_trans a.2 b.2 c.2 hab hbc⟩
  set gcols := (splitGroupColumns gstr).filterMap df.getCol with hgcols
  set rows := keyedRows df.height gcols acol with hrows
  set keys := (rows.map Prod.fst).dedup with hkeys
  set unsorted := keys.map (fun k =>
    (k, groupAgg op (rows.filterMap
      (fun r => if r.1 = k then some r.2 else none)))) with hunsorted
  refine ⟨List.insertionSort (fun a b => descNaLast a.2 b.2 = true) unsorted,
    ?_, ?_, ?_, ?_⟩
  · simp [group_by_analysis, hmiss, hacol, hop, hnog, hnum]
  · have hperm : ((List.insertionSort (fun a b => descNaLast a.2 b.2 = true)
        unsorted).map Prod.fst).Perm (unsorted.map Prod.fst) :=
      (List.perm_insertionSort _ unsorted).map Prod.fst
    rw [hperm.nodup_iff]
    have : unsorted.map Prod.fst = keys := by
      simp [hunsorted, List.map_map, Function.comp_def]
    rw [this]
    exact List.nodup_dedup _
  · intro k
    have hperm : ((List.insertionSort (fun a b => descNaLast a.2 b.2 = true)
        unsorted).map Prod.fst).Perm (unsorted.map Prod.fst) :=
      (List.perm_insertionSort _ unsorted).map Prod.fst
    rw [hperm.mem_iff]
    have hunkeys : unsorted.map Prod.fst = keys := by
      simp [hunsorted, List.map_map, Function.comp_def]
    rw [hunkeys, hkeys, List.mem_dedup]
    constructor
    · intro hk
      obtain ⟨r, hr, hrk⟩ := List.mem_map.mp hk
      obtain ⟨i, hi, hmap⟩ := List.mem_filterMap.mp hr
      obtain ⟨k', hk', heq⟩ := Option.map_eq_some'.mp hmap
      refine ⟨i, List.mem_range.mp hi, ?_⟩
      rw [← heq] at hrk
      simp only at hrk
      rw [hk', hrk]
    · rintro ⟨i, hi, hk⟩
      exact List.mem_map.mpr ⟨(k, numAt acol i),
        List.mem_filterMap.mpr ⟨i, List.mem_range.mpr hi, by rw [hk]; rfl⟩, rfl⟩
  · have hsorted := List.sorted_insertionSort
      (fun a b : List Value × Option ℚ => descNaLast a.2 b.2 = true) unsorted
    exact hsorted.map Prod.snd (fun a b h => h)

/-- C7 witness: grouping the sample frame by `region` and summing `x`
satisfies all three properties. -/
theorem c7_group_aggregate_witness :
    ∃ results,
      group_by_analysis sampleDf "region" "x" "sum" =
        GroupOutcome.ok (splitGroupColumns "region") "x" "sum" results ∧
      (results.map Prod.fst).Nodup ∧
      (∀ k, k ∈ results.map Prod.fst ↔
        ∃ i, i < sampleDf.height ∧
          rowKey ((splitGroupColumns "region").filterMap sampleDf.getCol) i
            = some k) ∧
      (results.map Prod.snd).Pairwise (fun a b => descNaLast a b = true) :=
  c7_group_aggregate sampleDf "region" "x" "sum" colX (by decide) (by decide)
    (by decide) (by decide) (by decide)

/-- C6: for every sheet and every pair of numeric columns `a` and `b`,
`correlate(a, b)` and `correlate(b, a)` report numerically identical
results — the same (rounded) Pearson coefficient, the same strength-and-
direction interpretation string, and the same count of paired non-null
rows. -/
theorem c6_correlation_symmetric (df : DataFrame) (a b : String)
    (ca cb : Column)
    (ha : df.getCol a = some ca) (hb : df.getCol b = some cb)
    (hna : ca.dtype = Dtype.numeric) (hnb : cb.dtype = Dtype.numeric) :
    ∃ r interp n,
      calculate_correlation df a b = CorrOutcome.ok a b r interp n ∧
      calculate_correlation df b a = CorrOutcome.ok b a r interp n := by
  refine ⟨(pearson ca.nums cb.nums).map round4,
    interpretationOf (pearson ca.nums cb.nums),
    (pairedObs ca.nums cb.nums).length, ?_, ?_⟩
  · simp [calculate_correlation, ha, hb, hna, hnb]
  · simp only [calculate_correlation, ha, hb, hna, hnb]
    rw [pearson_swap, pairedObs_swap]
    simp [hna, hnb]

/-- C6 witness: `correlate("x", "y")` and `correlate("y", "x")` on the
sample frame agree on coefficient, interpretation and row count. -/
theorem c6_correlation_symmetric_witness :
    ∃ r interp n,
      calculate_correlation sampleDf "x" "y" = CorrOutcome.ok "x" "y" r interp n ∧
      calculate_correlation sampleDf "y" "x" = CorrOutcome.ok "y" "x" r interp n :=
  c6_correlation_symmetric sampleDf "x" "y" colX colY
    (by decide) (by decide) (by decide) (by decide)

/-- C8: with valid date and value columns (the date column coercible to
dates, the value column numeric), the ungrouped trend action takes its
first and last values from the rows arranged ascending by coerced date
(`NaT` last), reports `percent_change = 0` whenever the first value is
exactly 0, and the grouped variant emits exactly one block per distinct
non-null group value (with the same zero-base rule in every block). -/
theorem c8_trend (df : DataFrame) (dc vc : String) (dcol vcol : Column)
    (hd : df.getCol dc = some dcol) (hv : df.getCol vc = some vcol)
    (hvnum : vcol.dtype = Dtype.numeric) (dates : List (Option ℚ))
    (hdates : coerceDates dcol = some dates) :
    (dates.zip vcol.nums ≠ [] →
      ∃ blk dir, ∃ sorted : List (Option ℚ × Option ℚ),
        analyze_trend df dc vc none = TrendOutcome.ok dc vc blk dir ∧
        sorted.Perm (dates.zip vcol.nums) ∧
        sorted.Pairwise (fun x y => dateAscNaLast x y = true) ∧
        sorted.head?.map Prod.snd = some blk.firstValue ∧
        sorted.getLast?.map Prod.snd = some blk.lastValue ∧
        (blk.firstValue = some 0 → blk.percentChange = some 0)) ∧
    (∀ gc gcol, df.getCol gc = some gcol →
      ∃ trends,
        analyze_trend df dc vc (some gc) =
          TrendOutcome.okGrouped dc vc gc trends ∧
        (trends.map Prod.fst).Nodup ∧
        (∀ k, k ∈ trends.map Prod.fst ↔
          some k ∈ (trendKeyed dates vcol.nums gcol).map Prod.snd) ∧
        (∀ k blk, (k, blk) ∈ trends → blk.firstValue = some 0 →
          blk.percentChange = some 0)) := by
  haveI htot : IsTotal (Option ℚ × Option ℚ)
      (fun x y => dateAscNaLast x y = true) :=
    ⟨fun x y => Bool.or_eq_true _ _ |>.mp (dateAscNaLast_total x y)⟩
  haveI htrans : IsTrans (Option ℚ × Option ℚ)
      (fun x y => dateAscNaLast x y = true) :=
    ⟨fun x y z => dateAscNaLast_trans x y z⟩
  constructor
  · intro hne
    have hperm : (List.insertionSort (fun x y => dateAscNaLast x y = true)
        (dates.zip vcol.nums)).Perm (dates.zip vcol.nums) :=
      List.perm_insertionSort _ _
    have hsne : List.insertionSort (fun x y => dateAscNaLast x y = true)
        (dates.zip vcol.nums) ≠ [] := by
      intro hc
      apply hne
      have hlen := hperm.length_eq
      rw [hc] at hlen
      exact List.length_eq_zero.mp hlen.symm
    obtain ⟨blk, hblk⟩ := mkBlock_isSome _ hsne
    obtain ⟨hf, hl, hp⟩ := mkBlock_fields _ blk hblk
    refine ⟨blk, trendDirection blk.change, _, ?_, hperm, ?_, hf, hl, hp⟩
    · simp only [analyze_trend, hd, hv, hdates]
      simp only [hvnum, ne_eq, not_true_eq_false, if_neg, ite_false,
        not_false_eq_true]
      rw [hblk]
    · exact List.sorted_insertionSort _ (dates.zip vcol.nums)
  · intro gc gcol hgc
    set keyed := trendKeyed dates vcol.nums gcol with hkeyed
    set rows := keyed.filterMap (fun r => r.2.map (fun k => (k, r.1)))
      with hrows
    set keys := (rows.map Prod.fst).dedup with hkeys
    set f := fun k =>
      (mkBlock (List.insertionSort (fun x y => dateAscNaLast x y = true)
        (rows.filterMap (fun r => if r.1 = k then some r.2 else none)))).map
        (fun blk => (k, blk)) with hfdef
    have hkeysome : ∀ k ∈ keys, ∃ blk, f k = some (k, blk) := by
      intro k hk
      rw [hkeys, List.mem_dedup] at hk
      obtain ⟨r, hr, hrk⟩ := List.mem_map.mp hk
      have hmemf : r.2 ∈ rows.filterMap
          (fun r' => if r'.1 = k then some r'.2 else none) :=
        List.mem_filterMap.mpr ⟨r, hr, by rw [if_pos hrk]⟩
      have hne : List.insertionSort (fun x y => dateAscNaLast x y = true)
          (rows.filterMap (fun r' => if r'.1 = k then some r'.2 else none))
          ≠ [] := by
        intro hc
        have hlen := (List.perm_insertionSort
          (fun x y => dateAscNaLast x y = true)
          (rows.filterMap (fun r' => if r'.1 = k then some r'.2 else none))).length_eq
        rw [hc] at hlen
        rw [List.length_eq_zero.mp hlen.symm] at hmemf
        exact absurd hmemf (List.not_mem_nil _)
      obtain ⟨blk, hblk⟩ := mkBlock_isSome _ hne
      refine ⟨blk, ?_⟩
      rw [hfdef]
      dsimp only
      rw [hblk]
      rfl
    refine ⟨keys.filterMap f, ?_, ?_, ?_, ?_⟩
    · rw [hfdef, hkeys, hrows, hkeyed]
      simp only [analyze_trend, hd, hv, hdates, hgc]
      simp only [hvnum, ne_eq, not_true_eq_false, if_neg, ite_false,
        not_false_eq_true]
    · rw [map_fst_filterMap_keyed f keys hkeysome, hkeys]
      exact List.nodup_dedup _
    · intro k
      rw [map_fst_filterMap_keyed f keys hkeysome, hkeys, List.mem_dedup]
      constructor
      · intro hk
        obtain ⟨r, hr, hrk⟩ := List.mem_map.mp hk
        obtain ⟨p, hp', hmap⟩ := List.mem_filterMap.mp hr
        obtain ⟨k', hk', heq⟩ := Option.map_eq_some'.mp hmap
        refine List.mem_map.mpr ⟨p, hp', ?_⟩
        rw [← heq] at hrk
        simp only at hrk
        rw [hk', hrk]
      · intro hk
        obtain ⟨p, hp', hpk⟩ := List.mem_map.mp hk
        refine List.mem_map.mpr ⟨(k, p.1),
          List.mem_filterMap.mpr ⟨p, hp', by rw [hpk]; rfl⟩, rfl⟩
    · intro k blk hkb h0
      obtain ⟨k', hk', hfk⟩ := List.mem_filterMap.mp hkb
      rw [hfdef] at hfk
      dsimp only at hfk
      obtain ⟨b, hb, heq⟩ := Option.map_eq_some'.mp hfk
      obtain ⟨hk1, hk2⟩ := Prod.mk.inj heq
      subst hk2
      exact (mkBlock_fields _ b hb).2.2 h0

/-- C8 witness: the sample frame with its `date` and `x` columns,
grouped and ungrouped, satisfies every conjunct; the ungrouped rows are
nonempty and `region` is a valid group column. -/
theorem c8_trend_witness :
    ((coerceDates colDate).getD [] ).zip colX.nums ≠ [] ∧
    (∃ blk dir, ∃ sorted : List (Option ℚ × Option ℚ),
      analyze_trend sampleDf "date" "x" none = TrendOutcome.ok "date" "x" blk dir ∧
      sorted.Perm (((coerceDates colDate).getD []).zip colX.nums) ∧
      sorted.Pairwise (fun x y => dateAscNaLast x y = true) ∧
      sorted.head?.map Prod.snd = some blk.firstValue ∧
      sorted.getLast?.map Prod.snd = some blk.lastValue ∧
      (blk.firstValue = some 0 → blk.percentChange = some 0)) ∧
    (∃ trends,
      analyze_trend sampleDf "date" "x" (some "region") =
        TrendOutcome.okGrouped "date" "x" "region" trends ∧
      (trends.map Prod.fst).Nodup ∧
      (∀ k, k ∈ trends.map Prod.fst ↔
        some k ∈ (trendKeyed ((coerceDates colDate).getD []) colX.nums
          colRegion).map Prod.snd) ∧
      (∀ k blk, (k, blk) ∈ trends → blk.firstValue = some 0 →
        blk.percentChange = some 0)) :=
  ⟨by decide,
   (c8_trend sampleDf "date" "x" colDate colX (by decide) (by decide)
      (by decide) ((coerceDates colDate).getD []) (by decide)).1 (by decide),
   (c8_trend sampleDf "date" "x" colDate colX (by decide) (by decide)
      (by decide) ((coerceDates colDate).getD []) (by decide)).2 "region"
      colRegion (by decide)⟩

/-- C10: whenever the ungrouped trend action reports a result, its
direction label is `"increasing"` exactly for strictly positive change
and `"decreasing"` otherwise; in particular a change of exactly zero is
labelled `"decreasing"`, not a neutral label. -/
theorem c10_zero_change_direction (df : DataFrame) (dc vc : String)
    (blk : TrendBlock) (dir : String)
    (h : analyze_trend df dc vc none = TrendOutcome.ok dc vc blk dir) :
    (blk.change = some 0 → dir = "decreasing") ∧
    (dir = "increasing" ↔ ∃ c, blk.change = some c ∧ 0 < c) := by
  unfold analyze_trend at h
  split at h
  · exact TrendOutcome.noConfusion h
  · split at h
    · exact TrendOutcome.noConfusion h
    · split at h
      · exact TrendOutcome.noConfusion h
      · split at h
        · exact TrendOutcome.noConfusion h
        · dsimp only at h
          split at h
          · exact TrendOutcome.noConfusion h
          · injection h with h1 h2 h3 h4
            subst h3
            subst h4
            exact ⟨(trendDirection_spec _).2, (trendDirection_spec _).1⟩

/-- C10 witness: on a two-row frame whose first and last values are both
5 (change exactly 0), the reported direction is `"decreasing"`. -/
theorem c10_zero_change_direction_witness :
    ((⟨some 5, some 5, some 0, some 0⟩ : TrendBlock).change = some 0 →
      "decreasing" = "decreasing") ∧
    ("decreasing" = "increasing" ↔
      ∃ c, (⟨some 5, some 5, some 0, some 0⟩ : TrendBlock).change = some c ∧
        0 < c) :=
  c10_zero_change_direction dfTrendW "d" "v"
    ⟨some 5, some 5, some 0, some 0⟩ "decreasing" (by decide)

/-- C9 counterexample: the spelled-out operation name `stdev` of the
claim is rejected by `aggregate_data` even on a valid numeric column —
the accepted set spells it `std` — and the structured error lists the
valid choices. -/
theorem c9_counterexample :
    aggregate_data sampleDf "x" "stdev" none =
      AggOutcome.invalidOperation "stdev" valid_operations ∧
    "stdev" ∉ valid_operations := by
  constructor
  · rfl
  · decide

/-- C9 amended: the aggregate action accepts every operation in
{sum, mean, median, count, min, max, std} on a numeric column, returning
a single scalar that is null when the value is undefined (mean of an
empty row set; std of at most one non-null row); an operation outside
that set yields a structured error listing the valid choices, and an
unknown column yields a structured error listing the available
columns. -/
theorem c9_aggregate_ops (df : DataFrame) (c op : String) (col : Column)
    (hcol : df.getCol c = some col) (hnum : col.dtype = Dtype.numeric) :
    (op ∈ valid_operations →
      ∃ r, aggregate_data df c op none = AggOutcome.ok c op r df.height) ∧
    (op ∉ valid_operations →
      aggregate_data df c op none =
        AggOutcome.invalidOperation op valid_operations) ∧
    (ocount col.nums = 0 →
      aggregate_data df c "mean" none = AggOutcome.ok c "mean" none df.height) ∧
    (ocount col.nums ≤ 1 →
      aggregate_data df c "std" none = AggOutcome.ok c "std" none df.height) ∧
    (∀ c2, df.getCol c2 = none →
      aggregate_data df c2 op none = AggOutcome.columnNotFound c2 df.names) := by
  refine ⟨?_, ?_, ?_, ?_, ?_⟩
  · intro hop
    simp only [valid_operations, List.mem_cons, List.not_mem_nil, or_false] at hop
    rcases hop with h|h|h|h|h|h|h <;>
      (subst h
       simp only [aggregate_data, hcol, runAgg, hnum, reduceIte]
       exact ⟨_, rfl⟩)
  · intro hop
    simp only [aggregate_data, hcol]
    split
    all_goals first
      | rfl
      | (exfalso; apply hop; simp_all [valid_operations])
  · intro h0
    simp [aggregate_data, hcol, runAgg, hnum, omean, h0]
  · intro hle
    simp only [ocount] at hle
    simp [aggregate_data, hcol, runAgg, hnum, ostd, ovariance, hle]
  · intro c2 hc2
    simp [aggregate_data, hc2]

/-- C9 witness: on the sample frame, `sum` over `x` yields a scalar and
an unknown column yields the structured column error. -/
theorem c9_aggregate_ops_witness :
    (∃ r, aggregate_data sampleDf "x" "sum" none =
      AggOutcome.ok "x" "sum" r sampleDf.height) ∧
    aggregate_data sampleDf "nope" "sum" none =
      AggOutcome.columnNotFound "nope" sampleDf.names :=
  ⟨(c9_aggregate_ops sampleDf "x" "sum" colX (by decide) (by decide)).1 (by decide),
   (c9_aggregate_ops sampleDf "x" "sum" colX (by decide)
      (by decide)).2.2.2.2 "nope" (by decide)⟩

end AgenticRag
